import Mathlib

/-!
Shallow embedding of the session registry of `src/api/browser-manager.js`
(class `BrowserManager`) together with the id-generating HTTP shell of the
main server file (`POST /sessions` draws a fresh nanoid-based id and calls
`createSession`; `shutdown` calls `cleanup`).

Modelling decisions, each traceable to a source line:
* The in-memory store `this.sessions = new Map()` is an insertion-ordered
  association list with pairwise-distinct keys (a JS `Map`).  `set` on an
  existing key overwrites in place, otherwise appends; `get` finds the entry;
  `delete` removes it; iteration follows insertion order.
* The Playwright driver (`chromium.launchServer`, `server.close()`) is an
  oracle `Env`: the outcome of the n-th `launchServer` call (an error or a
  `wsEndpoint` string), the outcome of `close()` per handle (an error that
  `killSession` catches, or success), and the wall clock for
  `new Date().toISOString()`.  Each successful launch yields a fresh opaque
  handle, modelled as the value of a monotone counter.
* The HTTP shell's id generator `sess_${nanoid(16)}` is an oracle
  `Env.freshId : Nat -> String`; the n-th `POST /sessions` request draws
  `freshId n`.  Collision resistance of nanoid is the hypothesis
  `Function.Injective env.freshId` where a claim needs it.
* Driver interactions are recorded as an explicit event list so that
  ordering facts (close happens before removal, the status the session had
  when `close` was invoked, which id/handle pairs were ever inserted) are
  stated about the code's visible behaviour rather than about ghost state.
-/

namespace BaaS

/-- A proxy descriptor as accepted by `POST /sessions` (`{server, username,
password}`, see the `proxy` handling in `createSession`). -/
structure Proxy where
  server : String
  username : String
  password : String
deriving Repr, DecidableEq

/-- Viewport dimensions (`{width, height}`). -/
structure Viewport where
  width : Nat
  height : Nat
deriving Repr, DecidableEq

/-- The launch configuration the HTTP layer passes to `createSession`
(`{headless, proxy, viewport, userAgent}`, defaults as in the
`POST /sessions` handler). -/
structure Options where
  headless : Bool := true
  proxy : Option Proxy := none
  viewport : Viewport := ⟨1920, 1080⟩
  userAgent : Option String := none
deriving Repr, DecidableEq

/-- What `createSession` actually stores under the `options` key:
`{ headless, proxy: !!proxy, viewport }` — the proxy descriptor is coerced
to a presence boolean and `userAgent` is not stored at all. -/
structure StoredOptions where
  headless : Bool
  proxy : Bool
  viewport : Viewport
deriving Repr, DecidableEq

/-- One entry of `this.sessions`:
`{ server, wsEndpoint, createdAt, status, options }`.  `server` is the
opaque driver handle returned by `chromium.launchServer`. -/
structure Session where
  server : Nat
  wsEndpoint : String
  createdAt : String
  status : String
  options : StoredOptions
deriving Repr, DecidableEq

/-- The object literal returned by `createSession`:
`{ sessionId, wsEndpoint, createdAt, status }` (no `options`, no `server`). -/
structure CreateResult where
  sessionId : String
  wsEndpoint : String
  createdAt : String
  status : String
deriving Repr, DecidableEq

/-- The object literal returned by `getSession` and (per entry) by
`listSessions`: `{ sessionId, wsEndpoint, createdAt, status, options }`
(no `server`). -/
structure SessionInfo where
  sessionId : String
  wsEndpoint : String
  createdAt : String
  status : String
  options : StoredOptions
deriving Repr, DecidableEq

/-- Oracle for everything outside the registry: the Playwright driver and
the HTTP shell's id generator and clock. -/
structure Env where
  /-- Outcome of the n-th `chromium.launchServer` call: `.error msg` models a
  rejected launch promise, `.ok ep` a server whose `wsEndpoint()` is `ep`. -/
  launchResult : Nat → Except String String
  /-- Outcome of `server.close()` on a given handle: `some msg` models a
  rejected close promise (caught by `killSession`), `none` success. -/
  closeResult : Nat → Option String
  /-- Value of `new Date().toISOString()` at the n-th creation. -/
  now : Nat → String
  /-- The id `sess_${nanoid(16)}` drawn by the n-th `POST /sessions`. -/
  freshId : Nat → String

/-- State of one `BrowserManager` instance plus the driver-side counters of
the model: `sessions` is the JS `Map`, `launchCalls` counts
`chromium.launchServer` invocations (and numbers the handles), `tick`
counts timestamp reads. -/
structure BM where
  sessions : List (String × Session)
  launchCalls : Nat
  tick : Nat
deriving Repr, DecidableEq

/-- Constructor `new BrowserManager()`: empty map. -/
def BM.init : BM := ⟨[], 0, 0⟩

/-- JS `Map.prototype.get`. -/
def mapGet (l : List (String × Session)) (k : String) : Option Session :=
  (l.find? (fun p => p.1 = k)).map Prod.snd

/-- JS `Map.prototype.set`: overwrite in place if the key is present,
append otherwise. -/
def mapSet (l : List (String × Session)) (k : String) (v : Session) :
    List (String × Session) :=
  match l with
  | [] => [(k, v)]
  | p :: rest => if p.1 = k then (k, v) :: rest else p :: mapSet rest k v

/-- JS `Map.prototype.delete`: drop the entries carrying this key. -/
def mapDelete (l : List (String × Session)) (k : String) :
    List (String × Session) :=
  match l with
  | [] => []
  | p :: rest => if p.1 = k then mapDelete rest k else p :: mapDelete rest k

/-- Driver interactions and registry mutations, in the order the code
performs them. -/
inductive Event where
  /-- A successful `chromium.launchServer` returning this handle/endpoint. -/
  | launched (handle : Nat) (endpoint : String)
  /-- Call `this.sessions.set(sessionId, session)` for a freshly created session
  owning this handle. -/
  | inserted (id : String) (handle : Nat)
  /-- Call `await session.server.close()`, recording the session's `status` field
  at the moment of the call and the caught error, if any. -/
  | closed (handle : Nat) (statusAtCall : String) (closeErr : Option String)
  /-- Call `this.sessions.delete(sessionId)`. -/
  | removed (id : String)
deriving Repr, DecidableEq

/-- Method `createSession(sessionId, options)`: destructure `headless`, `proxy`,
`viewport` (with defaults), `await chromium.launchServer(...)` — a rejected
promise propagates before any store mutation — then store
`{server, wsEndpoint, createdAt, status: 'active',
options: {headless, proxy: !!proxy, viewport}}` and return
`{sessionId, wsEndpoint, createdAt, status}`. -/
def createSession (env : Env) (st : BM) (sessionId : String) (opts : Options) :
    BM × List Event × Except String CreateResult :=
  match env.launchResult st.launchCalls with
  | .error e => ({ st with launchCalls := st.launchCalls + 1 }, [], .error e)
  | .ok ep =>
    let handle := st.launchCalls
    let createdAt := env.now st.tick
    let session : Session :=
      { server := handle
        wsEndpoint := ep
        createdAt := createdAt
        status := "active"
        options :=
          { headless := opts.headless
            proxy := opts.proxy.isSome
            viewport := opts.viewport } }
    ({ sessions := mapSet st.sessions sessionId session
       launchCalls := st.launchCalls + 1
       tick := st.tick + 1 },
     [Event.launched handle ep, Event.inserted sessionId handle],
     .ok { sessionId := sessionId
           wsEndpoint := ep
           createdAt := createdAt
           status := session.status })

/-- Method `getSession(sessionId)`: pure lookup, returning
`{sessionId, wsEndpoint, createdAt, status, options}` or `null`. -/
def getSession (st : BM) (sessionId : String) : Option SessionInfo :=
  (mapGet st.sessions sessionId).map fun s =>
    { sessionId := sessionId
      wsEndpoint := s.wsEndpoint
      createdAt := s.createdAt
      status := s.status
      options := s.options }

/-- Method `listSessions()`: one info object per map entry, in insertion order. -/
def listSessions (st : BM) : List SessionInfo :=
  st.sessions.map fun p =>
    { sessionId := p.1
      wsEndpoint := p.2.wsEndpoint
      createdAt := p.2.createdAt
      status := p.2.status
      options := p.2.options }

/-- Method `killSession(sessionId)`: `false` if absent; otherwise
`await session.server.close()` inside try/catch (the error is only logged),
then `this.sessions.delete(sessionId)` and `return true`. -/
def killSession (env : Env) (st : BM) (sessionId : String) :
    BM × List Event × Bool :=
  match mapGet st.sessions sessionId with
  | none => (st, [], false)
  | some s =>
    ({ st with sessions := mapDelete st.sessions sessionId },
     [Event.closed s.server s.status (env.closeResult s.server),
      Event.removed sessionId],
     true)

/-- Method `getActiveCount()`: `this.sessions.size`. -/
def getActiveCount (st : BM) : Nat :=
  st.sessions.length

/-- The loop body of `cleanup()` over a key snapshot. -/
def cleanupGo (env : Env) (st : BM) : List String → BM × List Event
  | [] => (st, [])
  | k :: ks =>
    let (st1, evs1, _) := killSession env st k
    let (st2, evs2) := cleanupGo env st1 ks
    (st2, evs1 ++ evs2)

/-- Method `cleanup()`: `for (const [sessionId] of this.sessions) await
this.killSession(sessionId)`.  A JS `Map` iterator visits every entry
present at visit time; since the body deletes exactly the key being
visited and inserts nothing, this is the run over the snapshot of keys
taken at entry. -/
def cleanup (env : Env) (st : BM) : BM × List Event :=
  cleanupGo env st (st.sessions.map Prod.fst)

/-- State of the whole process: the singleton manager plus the HTTP shell's
count of `POST /sessions` requests served (which indexes `freshId`). -/
structure Sys where
  bm : BM
  idCount : Nat
deriving Repr, DecidableEq

def Sys.init : Sys := ⟨BM.init, 0⟩

/-- One externally triggered operation: a `POST /sessions` request (which
draws a fresh id and calls `createSession`) or a `DELETE /sessions/:id`
request (which calls `killSession`). -/
inductive Op where
  | create (opts : Options)
  | kill (id : String)
deriving Repr, DecidableEq

/-- Handle one request, as the route handlers do. -/
def stepOp (env : Env) (s : Sys) : Op → Sys × List Event
  | .create opts =>
    let id := env.freshId s.idCount
    let (bm, evs, _) := createSession env s.bm id opts
    (⟨bm, s.idCount + 1⟩, evs)
  | .kill id =>
    let (bm, evs, _) := killSession env s.bm id
    (⟨bm, s.idCount⟩, evs)

/-- Run a sequence of requests, accumulating the event log. -/
def run (env : Env) (s : Sys) : List Op → Sys × List Event
  | [] => (s, [])
  | op :: ops =>
    let (s1, evs1) := stepOp env s op
    let (s2, evs2) := run env s1 ops
    (s2, evs1 ++ evs2)

/-- Ids of `inserted` events. -/
def insertedIds : List Event → List String
  | [] => []
  | Event.inserted id _ :: evs => id :: insertedIds evs
  | _ :: evs => insertedIds evs

/-- Handles of `inserted` events. -/
def insertedHandles : List Event → List Nat
  | [] => []
  | Event.inserted _ h :: evs => h :: insertedHandles evs
  | _ :: evs => insertedHandles evs

/-- Keys currently in the map. -/
def BM.keys (st : BM) : List String := st.sessions.map Prod.fst

/-- Well-formedness of the store: a JS `Map` has pairwise-distinct keys. -/
def WF (st : BM) : Prop := st.keys.Nodup

/-- Rewrite every stored driver handle (used to state that the public
return values do not depend on the handles). -/
def mapHandles (f : Nat → Nat) (st : BM) : BM :=
  { st with sessions := st.sessions.map fun p => (p.1, { p.2 with server := f p.2.server }) }

/-- The ids the `POST /sessions` handler draws while serving a request
sequence (one per create request, drawn before the launch outcome is
known and discarded on failure). -/
def assignedIds (env : Env) (s : Sys) : List Op → List String
  | [] => []
  | op :: ops =>
    (match op with
     | .create _ => [env.freshId s.idCount]
     | .kill _ => []) ++ assignedIds env (stepOp env s op).1 ops

/-- Concrete driver/shell oracle: every launch succeeds with a fixed
endpoint, every close succeeds, ids are pairwise distinct. -/
def envA : Env :=
  { launchResult := fun _ => Except.ok "ws://127.0.0.1:3001/cdp"
    closeResult := fun _ => none
    now := fun _ => "2026-01-01T00:00:00.000Z"
    freshId := fun n => String.mk (List.replicate n 's') }

/-- Like `envA` but every `server.close()` rejects. -/
def envB : Env :=
  { envA with closeResult := fun _ => some "close failed" }

/-- Like `envA` but every `chromium.launchServer` rejects. -/
def envC : Env :=
  { envA with launchResult := fun _ => Except.error "launch failed" }

/-- A concrete one-session manager state, for witnesses. -/
def stA : BM := (createSession envA BM.init "sess_x" {}).1

end BaaS

namespace BaaS

/-! ### Association-list lemmas (JS `Map` behaviour) -/

theorem mapGet_mapSet_self (l : List (String × Session)) (k : String) (v : Session) :
    mapGet (mapSet l k v) k = some v := by
  induction l with
  | nil => simp [mapSet, mapGet, List.find?]
  | cons p rest ih =>
    by_cases h : p.1 = k
    · simp [mapSet, h, mapGet, List.find?]
    · simp only [mapSet, if_neg h]
      simpa [mapGet, List.find?, h] using ih

theorem mapGet_mapSet_ne (l : List (String × Session)) (k' k : String) (v : Session)
    (h : k' ≠ k) : mapGet (mapSet l k' v) k = mapGet l k := by
  induction l with
  | nil => simp [mapSet, mapGet, List.find?, h]
  | cons p rest ih =>
    by_cases hp : p.1 = k'
    · simp [mapSet, hp, mapGet, List.find?, h, hp ▸ h]
    · simp only [mapSet, if_neg hp]
      by_cases hk : p.1 = k
      · simp [mapGet, List.find?, hk]
      · simpa [mapGet, List.find?, hk] using ih

theorem mapGet_mapDelete (l : List (String × Session)) (k' k : String) :
    mapGet (mapDelete l k') k = if k = k' then none else mapGet l k := by
  induction l with
  | nil => simp [mapDelete, mapGet]
  | cons p rest ih =>
    by_cases hp : p.1 = k'
    · rw [mapDelete, if_pos hp, ih]
      by_cases hk : k = k'
      · simp [hk]
      · have hpk : ¬ p.1 = k := fun h => hk (by rw [← h, hp])
        simp [mapGet, List.find?, hpk, hk]
    · rw [mapDelete, if_neg hp]
      by_cases hpk : p.1 = k
      · have hk : ¬ k = k' := fun h => hp (by rw [hpk, h])
        simp [mapGet, List.find?, hpk, hk]
      · simp only [mapGet, List.find?] at ih ⊢
        simpa [hpk] using ih

theorem mapGet_eq_none_iff (l : List (String × Session)) (k : String) :
    mapGet l k = none ↔ k ∉ l.map Prod.fst := by
  rw [mapGet, Option.map_eq_none', List.find?_eq_none]
  constructor
  · intro h hmem
    rcases List.mem_map.mp hmem with ⟨p, hp, hfst⟩
    exact h p hp (by simp [hfst])
  · intro h p hp hpk
    have hk : p.1 = k := of_decide_eq_true hpk
    exact h (hk ▸ List.mem_map_of_mem Prod.fst hp)

theorem mem_mapSet (l : List (String × Session)) (k : String) (v : Session)
    (p : String × Session) (h : p ∈ mapSet l k v) : p = (k, v) ∨ p ∈ l := by
  induction l with
  | nil => simpa [mapSet] using h
  | cons q rest ih =>
    by_cases hq : q.1 = k
    · simp only [mapSet, if_pos hq, List.mem_cons] at h
      rcases h with h | h
      · exact Or.inl h
      · exact Or.inr (List.mem_cons_of_mem q h)
    · simp only [mapSet, if_neg hq, List.mem_cons] at h
      rcases h with h | h
      · exact Or.inr (h ▸ List.mem_cons_self q rest)
      · rcases ih h with h' | h'
        · exact Or.inl h'
        · exact Or.inr (List.mem_cons_of_mem q h')

theorem mem_mapDelete (l : List (String × Session)) (k : String)
    (p : String × Session) (h : p ∈ mapDelete l k) : p ∈ l := by
  induction l with
  | nil => simp [mapDelete] at h
  | cons q rest ih =>
    by_cases hq : q.1 = k
    · rw [mapDelete, if_pos hq] at h
      exact List.mem_cons_of_mem q (ih h)
    · rw [mapDelete, if_neg hq] at h
      rcases List.mem_cons.mp h with h' | h'
      · exact h' ▸ List.mem_cons_self q rest
      · exact List.mem_cons_of_mem q (ih h')

end BaaS

namespace BaaS

theorem mapGet_map_handles (f : Nat → Nat) (l : List (String × Session)) (k : String) :
    mapGet (l.map fun p => (p.1, { p.2 with server := f p.2.server })) k
      = (mapGet l k).map fun s => { s with server := f s.server } := by
  induction l with
  | nil => simp [mapGet]
  | cons p rest ih =>
    by_cases hp : p.1 = k
    · simp [mapGet, List.find?, hp]
    · simp only [List.map_cons, mapGet, List.find?] at ih ⊢
      simpa [hp] using ih

/-- C8: in every registry state, `getActiveCount()` (`this.sessions.size`)
equals the length of the array returned by `listSessions()`. -/
theorem c8_count_eq_list_length (st : BM) :
    getActiveCount st = (listSessions st).length := by
  simp [getActiveCount, listSessions]

/-- C10: the stored driver handle is never exposed through the public
interface: rewriting every stored `server` handle leaves the return values
of `getSession`, `listSessions` and `createSession` unchanged, and those
values are built (by their types `SessionInfo` and `CreateResult`) from the
sessionId, wsEndpoint, createdAt, status and options fields only. -/
theorem c10_handle_not_exposed (f : Nat → Nat) (env : Env) (st : BM)
    (id : String) (opts : Options) :
    getSession (mapHandles f st) id = getSession st id ∧
    listSessions (mapHandles f st) = listSessions st ∧
    (createSession env (mapHandles f st) id opts).2.2
      = (createSession env st id opts).2.2 := by
  refine ⟨?_, ?_, ?_⟩
  · simp only [getSession, mapHandles]
    rw [mapGet_map_handles]
    cases mapGet st.sessions id <;> rfl
  · simp only [listSessions, mapHandles, List.map_map]
    exact List.map_congr_left fun p _ => rfl
  · cases h : env.launchResult st.launchCalls <;>
      simp [createSession, mapHandles, h]

/-- C3: for an id present in the registry, `killSession` removes the entry
and returns `true` even when the driver's `server.close()` rejects: the
error is caught (recorded in the event only) and never prevents removal nor
surfaces to the caller. -/
theorem c3_terminate_tolerates_close_failure (env : Env) (st : BM) (id : String)
    (s : Session) (e : String) (hs : mapGet st.sessions id = some s)
    (he : env.closeResult s.server = some e) :
    killSession env st id =
      ({ st with sessions := mapDelete st.sessions id },
       [Event.closed s.server s.status (some e), Event.removed id], true) := by
  simp [killSession, hs, he]

/-- C3 witness: a concrete one-session state whose close rejects. -/
theorem c3_witness :
    killSession envB stA "sess_x" =
      ({ stA with sessions := mapDelete stA.sessions "sess_x" },
       [Event.closed 0 "active" (some "close failed"), Event.removed "sess_x"],
       true) :=
  c3_terminate_tolerates_close_failure envB stA "sess_x"
    ⟨0, "ws://127.0.0.1:3001/cdp", "2026-01-01T00:00:00.000Z", "active",
      ⟨true, false, ⟨1920, 1080⟩⟩⟩ "close failed" (by decide) (by decide)

/-- C6: `createSession` is atomic on driver failure: when
`chromium.launchServer` rejects, no entry is inserted (the `sessions` map is
unchanged, only the model's call counter advances), no event is emitted, and
the call fails carrying the driver's failure detail. -/
theorem c6_create_atomic_on_failure (env : Env) (st : BM) (id : String)
    (opts : Options) (e : String)
    (h : env.launchResult st.launchCalls = Except.error e) :
    createSession env st id opts
      = ({ st with launchCalls := st.launchCalls + 1 }, [], Except.error e) ∧
    (createSession env st id opts).1.sessions = st.sessions := by
  refine ⟨?_, ?_⟩ <;> simp [createSession, h]

/-- C6 witness: a concrete failing launch. -/
theorem c6_witness :
    createSession envC BM.init "sess_x" {}
      = ({ BM.init with launchCalls := 1 }, [], Except.error "launch failed") ∧
    (createSession envC BM.init "sess_x" {}).1.sessions = BM.init.sessions :=
  c6_create_atomic_on_failure envC BM.init "sess_x" {} "launch failed" rfl

/-- C7: for an id not in the registry, `killSession` returns `false` with no
side effect and `getSession` reports not-found; and after any `killSession`
call, a second `killSession` for the same id returns `false`. -/
theorem c7_terminate_absent (env : Env) (st : BM) (id : String) :
    (mapGet st.sessions id = none →
      killSession env st id = (st, [], false) ∧ getSession st id = none) ∧
    (killSession env (killSession env st id).1 id).2.2 = false := by
  constructor
  · intro h
    exact ⟨by simp [killSession, h], by simp [getSession, h]⟩
  · cases hs : mapGet st.sessions id with
    | none => simp [killSession, hs]
    | some s => simp [killSession, hs, mapGet_mapDelete]

/-- C7 witness: an absent id on a concrete state, and a double kill of a
present id. -/
theorem c7_witness :
    (killSession envA stA "sess_y" = (stA, [], false) ∧
      getSession stA "sess_y" = none) ∧
    (killSession envA (killSession envA stA "sess_x").1 "sess_x").2.2 = false :=
  ⟨(c7_terminate_absent envA stA "sess_y").1 (by decide),
   (c7_terminate_absent envA stA "sess_x").2⟩

end BaaS

namespace BaaS

theorem run_fst_cons (env : Env) (s : Sys) (op : Op) (ops : List Op) :
    (run env s (op :: ops)).1 = (run env (stepOp env s op).1 ops).1 := by
  rw [run]

theorem run_snd_cons (env : Env) (s : Sys) (op : Op) (ops : List Op) :
    (run env s (op :: ops)).2
      = (stepOp env s op).2 ++ (run env (stepOp env s op).1 ops).2 := by
  rw [run]

theorem stepOp_create_idCount (env : Env) (s : Sys) (opts : Options) :
    (stepOp env s (Op.create opts)).1.idCount = s.idCount + 1 := by
  simp only [stepOp]

theorem stepOp_kill_idCount (env : Env) (s : Sys) (id : String) :
    (stepOp env s (Op.kill id)).1.idCount = s.idCount := by
  simp only [stepOp]

theorem stepOp_idCount_le (env : Env) (s : Sys) (op : Op) :
    s.idCount ≤ (stepOp env s op).1.idCount := by
  cases op with
  | create opts => rw [stepOp_create_idCount]; exact Nat.le_succ _
  | kill id => rw [stepOp_kill_idCount]

theorem stepOp_launchCalls_le (env : Env) (s : Sys) (op : Op) :
    s.bm.launchCalls ≤ (stepOp env s op).1.bm.launchCalls := by
  cases op with
  | create opts =>
    cases hl : env.launchResult s.bm.launchCalls with
    | error e =>
      simp only [stepOp, createSession, hl]
      exact Nat.le_succ _
    | ok ep =>
      simp only [stepOp, createSession, hl]
      exact Nat.le_succ _
  | kill id =>
    cases hg : mapGet s.bm.sessions id with
    | none => simp [stepOp, killSession, hg]
    | some srec => simp [stepOp, killSession, hg]

theorem insertedIds_append (a b : List Event) :
    insertedIds (a ++ b) = insertedIds a ++ insertedIds b := by
  induction a with
  | nil => simp [insertedIds]
  | cons e rest ih => cases e <;> simp [insertedIds, ih]

theorem insertedHandles_append (a b : List Event) :
    insertedHandles (a ++ b) = insertedHandles a ++ insertedHandles b := by
  induction a with
  | nil => simp [insertedHandles]
  | cons e rest ih => cases e <;> simp [insertedHandles, ih]

theorem stepOp_insertedIds_create_ok (env : Env) (s : Sys) (opts : Options)
    (ep : String) (hl : env.launchResult s.bm.launchCalls = Except.ok ep) :
    insertedIds (stepOp env s (Op.create opts)).2 = [env.freshId s.idCount] := by
  simp [stepOp, createSession, hl, insertedIds]

theorem stepOp_insertedIds_create_err (env : Env) (s : Sys) (opts : Options)
    (e : String) (hl : env.launchResult s.bm.launchCalls = Except.error e) :
    insertedIds (stepOp env s (Op.create opts)).2 = [] := by
  simp [stepOp, createSession, hl, insertedIds]

theorem stepOp_insertedIds_kill (env : Env) (s : Sys) (id : String) :
    insertedIds (stepOp env s (Op.kill id)).2 = [] := by
  cases hg : mapGet s.bm.sessions id with
  | none => simp [stepOp, killSession, hg, insertedIds]
  | some srec => simp [stepOp, killSession, hg, insertedIds]

theorem stepOp_insertedHandles_create_ok (env : Env) (s : Sys) (opts : Options)
    (ep : String) (hl : env.launchResult s.bm.launchCalls = Except.ok ep) :
    insertedHandles (stepOp env s (Op.create opts)).2 = [s.bm.launchCalls] := by
  simp [stepOp, createSession, hl, insertedHandles]

theorem stepOp_insertedHandles_create_err (env : Env) (s : Sys) (opts : Options)
    (e : String) (hl : env.launchResult s.bm.launchCalls = Except.error e) :
    insertedHandles (stepOp env s (Op.create opts)).2 = [] := by
  simp [stepOp, createSession, hl, insertedHandles]

theorem stepOp_insertedHandles_kill (env : Env) (s : Sys) (id : String) :
    insertedHandles (stepOp env s (Op.kill id)).2 = [] := by
  cases hg : mapGet s.bm.sessions id with
  | none => simp [stepOp, killSession, hg, insertedHandles]
  | some srec => simp [stepOp, killSession, hg, insertedHandles]

theorem mapDelete_sublist (l : List (String × Session)) (k : String) :
    List.Sublist (mapDelete l k) l := by
  induction l with
  | nil => simp [mapDelete]
  | cons p rest ih =>
    by_cases hp : p.1 = k
    · rw [mapDelete, if_pos hp]; exact ih.cons p
    · rw [mapDelete, if_neg hp]; exact ih.cons₂ p

theorem mem_mapDelete_ne (l : List (String × Session)) (k : String)
    (p : String × Session) (h : p ∈ mapDelete l k) : p.1 ≠ k := by
  induction l with
  | nil => simp [mapDelete] at h
  | cons q rest ih =>
    by_cases hq : q.1 = k
    · rw [mapDelete, if_pos hq] at h; exact ih h
    · rw [mapDelete, if_neg hq] at h
      rcases List.mem_cons.mp h with h' | h'
      · exact h' ▸ hq
      · exact ih h'

theorem handles_mem_mapSet (l : List (String × Session)) (k : String) (v : Session)
    (h : Nat) (hm : h ∈ (mapSet l k v).map fun p => p.2.server) :
    h = v.server ∨ h ∈ l.map fun p => p.2.server := by
  rcases List.mem_map.mp hm with ⟨p, hp, rfl⟩
  rcases mem_mapSet l k v p hp with h' | h'
  · left; rw [h']
  · right; exact List.mem_map_of_mem _ h'

theorem handles_nodup_mapSet (l : List (String × Session)) (k : String) (v : Session)
    (hn : (l.map fun p => p.2.server).Nodup)
    (hv : v.server ∉ l.map fun p => p.2.server) :
    ((mapSet l k v).map fun p => p.2.server).Nodup := by
  induction l with
  | nil => simp [mapSet]
  | cons p rest ih =>
    rw [List.map_cons, List.nodup_cons] at hn
    simp only [List.map_cons, List.mem_cons] at hv
    push_neg at hv
    by_cases hp : p.1 = k
    · rw [mapSet, if_pos hp, List.map_cons, List.nodup_cons]
      exact ⟨hv.2, hn.2⟩
    · rw [mapSet, if_neg hp, List.map_cons, List.nodup_cons]
      refine ⟨?_, ih hn.2 hv.2⟩
      intro hmem
      rcases handles_mem_mapSet rest k v _ hmem with h' | h'
      · exact hv.1 h'.symm
      · exact hn.1 h'

theorem mapGet_some_mem_keys (l : List (String × Session)) (k : String) (s : Session)
    (h : mapGet l k = some s) : k ∈ l.map Prod.fst := by
  by_contra hmem
  rw [(mapGet_eq_none_iff l k).mpr hmem] at h
  exact Option.noConfusion h

end BaaS

namespace BaaS

theorem run_insertedHandles_lb (env : Env) (ops : List Op) (s : Sys) :
    ∀ h ∈ insertedHandles (run env s ops).2, s.bm.launchCalls ≤ h := by
  induction ops generalizing s with
  | nil => simp [run, insertedHandles]
  | cons op ops ih =>
    intro h hm
    rw [run_snd_cons, insertedHandles_append] at hm
    rcases List.mem_append.mp hm with hm | hm
    · cases op with
      | create opts =>
        cases hl : env.launchResult s.bm.launchCalls with
        | error e => rw [stepOp_insertedHandles_create_err env s opts e hl] at hm; cases hm
        | ok ep =>
          rw [stepOp_insertedHandles_create_ok env s opts ep hl] at hm
          rcases List.mem_singleton.mp hm with rfl
          exact le_refl _
      | kill id => rw [stepOp_insertedHandles_kill] at hm; cases hm
    · exact le_trans (stepOp_launchCalls_le env s op) (ih (stepOp env s op).1 h hm)

theorem run_insertedHandles_nodup (env : Env) (ops : List Op) (s : Sys) :
    (insertedHandles (run env s ops).2).Nodup := by
  induction ops generalizing s with
  | nil => simp [run, insertedHandles]
  | cons op ops ih =>
    rw [run_snd_cons, insertedHandles_append]
    cases op with
    | create opts =>
      cases hl : env.launchResult s.bm.launchCalls with
      | error e =>
        rw [stepOp_insertedHandles_create_err env s opts e hl, List.nil_append]
        exact ih _
      | ok ep =>
        rw [stepOp_insertedHandles_create_ok env s opts ep hl, List.singleton_append]
        refine List.nodup_cons.mpr ⟨?_, ih _⟩
        intro hmem
        have hle := run_insertedHandles_lb env ops (stepOp env s (Op.create opts)).1 _ hmem
        have hlc : (stepOp env s (Op.create opts)).1.bm.launchCalls
            = s.bm.launchCalls + 1 := by
          simp only [stepOp, createSession, hl]
        rw [hlc] at hle
        omega
    | kill id =>
      rw [stepOp_insertedHandles_kill, List.nil_append]
      exact ih _

theorem run_insertedIds_lb (env : Env) (ops : List Op) (s : Sys) :
    ∀ i ∈ insertedIds (run env s ops).2, ∃ k, s.idCount ≤ k ∧ i = env.freshId k := by
  induction ops generalizing s with
  | nil => simp [run, insertedIds]
  | cons op ops ih =>
    intro i hm
    rw [run_snd_cons, insertedIds_append] at hm
    rcases List.mem_append.mp hm with hm | hm
    · cases op with
      | create opts =>
        cases hl : env.launchResult s.bm.launchCalls with
        | error e => rw [stepOp_insertedIds_create_err env s opts e hl] at hm; cases hm
        | ok ep =>
          rw [stepOp_insertedIds_create_ok env s opts ep hl] at hm
          rcases List.mem_singleton.mp hm with rfl
          exact ⟨s.idCount, le_refl _, rfl⟩
      | kill id => rw [stepOp_insertedIds_kill] at hm; cases hm
    · rcases ih (stepOp env s op).1 i hm with ⟨k, hk, hi⟩
      exact ⟨k, le_trans (stepOp_idCount_le env s op) hk, hi⟩

theorem run_insertedIds_nodup (env : Env) (hinj : Function.Injective env.freshId)
    (ops : List Op) (s : Sys) : (insertedIds (run env s ops).2).Nodup := by
  induction ops generalizing s with
  | nil => simp [run, insertedIds]
  | cons op ops ih =>
    rw [run_snd_cons, insertedIds_append]
    cases op with
    | create opts =>
      cases hl : env.launchResult s.bm.launchCalls with
      | error e =>
        rw [stepOp_insertedIds_create_err env s opts e hl, List.nil_append]
        exact ih _
      | ok ep =>
        rw [stepOp_insertedIds_create_ok env s opts ep hl, List.singleton_append]
        refine List.nodup_cons.mpr ⟨?_, ih _⟩
        intro hmem
        rcases run_insertedIds_lb env ops (stepOp env s (Op.create opts)).1 _ hmem
          with ⟨k, hk, heq⟩
        rw [stepOp_create_idCount] at hk
        have := hinj heq
        omega
    | kill id =>
      rw [stepOp_insertedIds_kill, List.nil_append]
      exact ih _

theorem assignedIds_lb (env : Env) (ops : List Op) (s : Sys) :
    ∀ i ∈ assignedIds env s ops, ∃ k, s.idCount ≤ k ∧ i = env.freshId k := by
  induction ops generalizing s with
  | nil => simp [assignedIds]
  | cons op ops ih =>
    intro i hm
    cases op with
    | create opts =>
      rw [assignedIds, List.singleton_append] at hm
      rcases List.mem_cons.mp hm with rfl | hm
      · exact ⟨s.idCount, le_refl _, rfl⟩
      · rcases ih (stepOp env s (Op.create opts)).1 i hm with ⟨k, hk, hi⟩
        exact ⟨k, le_trans (stepOp_idCount_le env s (Op.create opts)) hk, hi⟩
    | kill id =>
      rw [assignedIds, List.nil_append] at hm
      rcases ih (stepOp env s (Op.kill id)).1 i hm with ⟨k, hk, hi⟩
      exact ⟨k, le_trans (stepOp_idCount_le env s (Op.kill id)) hk, hi⟩

theorem assignedIds_nodup (env : Env) (hinj : Function.Injective env.freshId)
    (ops : List Op) (s : Sys) : (assignedIds env s ops).Nodup := by
  induction ops generalizing s with
  | nil => simp [assignedIds]
  | cons op ops ih =>
    cases op with
    | create opts =>
      rw [assignedIds, List.singleton_append]
      refine List.nodup_cons.mpr ⟨?_, ih _⟩
      intro hmem
      rcases assignedIds_lb env ops _ _ hmem with ⟨k, hk, heq⟩
      rw [stepOp_create_idCount] at hk
      have := hinj heq
      omega
    | kill id =>
      rw [assignedIds, List.nil_append]
      exact ih _

theorem run_handles_inv (env : Env) (ops : List Op) (s : Sys)
    (h1 : (s.bm.sessions.map fun p => p.2.server).Nodup)
    (h2 : ∀ h ∈ s.bm.sessions.map fun p => p.2.server, h < s.bm.launchCalls) :
    ((run env s ops).1.bm.sessions.map fun p => p.2.server).Nodup ∧
    ∀ h ∈ (run env s ops).1.bm.sessions.map fun p => p.2.server,
      h < (run env s ops).1.bm.launchCalls := by
  induction ops generalizing s with
  | nil => exact ⟨by simpa [run] using h1, by simpa [run] using h2⟩
  | cons op ops ih =>
    rw [run_fst_cons]
    cases op with
    | create opts =>
      cases hl : env.launchResult s.bm.launchCalls with
      | error e =>
        apply ih
        · simpa [stepOp, createSession, hl] using h1
        · simp only [stepOp, createSession, hl]
          intro hh hmem
          exact Nat.lt_succ_of_lt (h2 hh hmem)
      | ok ep =>
        apply ih
        · simp only [stepOp, createSession, hl]
          apply handles_nodup_mapSet _ _ _ h1
          intro hmem
          exact absurd (h2 _ hmem) (lt_irrefl _)
        · simp only [stepOp, createSession, hl]
          intro hh hmem
          rcases handles_mem_mapSet _ _ _ _ hmem with h' | h'
          · rw [h']; exact Nat.lt_succ_self _
          · exact Nat.lt_succ_of_lt (h2 _ h')
    | kill id =>
      cases hg : mapGet s.bm.sessions id with
      | none =>
        apply ih
        · simpa [stepOp, killSession, hg] using h1
        · simpa [stepOp, killSession, hg] using h2
      | some srec =>
        apply ih
        · simp only [stepOp, killSession, hg]
          exact h1.sublist ((mapDelete_sublist s.bm.sessions id).map _)
        · simp only [stepOp, killSession, hg]
          intro hh hmem
          rcases List.mem_map.mp hmem with ⟨p, hp, rfl⟩
          exact h2 _ (List.mem_map_of_mem _ (mem_mapDelete _ _ _ hp))

end BaaS

namespace BaaS

/-- C1: with a collision-free id generator (the model of nanoid's collision
resistance), every request trace from the initial state assigns pairwise
distinct ids to its create requests, never inserts the same id twice into
the registry, and no two registry entries — past or present, as recorded by
the full insertion log — ever own the same driver handle; in particular the
handles currently stored are pairwise distinct. -/
theorem c1_ids_and_handles_unique (env : Env) (ops : List Op)
    (hinj : Function.Injective env.freshId) :
    (assignedIds env Sys.init ops).Nodup ∧
    (insertedIds (run env Sys.init ops).2).Nodup ∧
    (insertedHandles (run env Sys.init ops).2).Nodup ∧
    ((run env Sys.init ops).1.bm.sessions.map fun p => p.2.server).Nodup :=
  ⟨assignedIds_nodup env hinj ops Sys.init,
   run_insertedIds_nodup env hinj ops Sys.init,
   run_insertedHandles_nodup env ops Sys.init,
   (run_handles_inv env ops Sys.init (by simp [Sys.init, BM.init])
     (by simp [Sys.init, BM.init])).1⟩

theorem envA_freshId_inj : Function.Injective envA.freshId := by
  intro a b h
  have h2 : List.replicate a 's' = List.replicate b 's' := congrArg String.data h
  simpa using congrArg List.length h2

/-- C1 witness: a concrete trace of two creates and a kill under a concrete
injective id generator. -/
theorem c1_witness :
    (assignedIds envA Sys.init [Op.create {}, Op.create {}, Op.kill "s"]).Nodup ∧
    (insertedIds (run envA Sys.init [Op.create {}, Op.create {}, Op.kill "s"]).2).Nodup ∧
    (insertedHandles (run envA Sys.init
      [Op.create {}, Op.create {}, Op.kill "s"]).2).Nodup ∧
    ((run envA Sys.init [Op.create {}, Op.create {}, Op.kill "s"]).1.bm.sessions.map
      fun p => p.2.server).Nodup :=
  c1_ids_and_handles_unique envA [Op.create {}, Op.create {}, Op.kill "s"]
    envA_freshId_inj

theorem run_keys_from_freshId (env : Env) (ops : List Op) (s : Sys)
    (h : ∀ k ∈ s.bm.sessions.map Prod.fst, ∃ j, j < s.idCount ∧ k = env.freshId j) :
    ∀ k ∈ (run env s ops).1.bm.sessions.map Prod.fst,
      ∃ j, j < (run env s ops).1.idCount ∧ k = env.freshId j := by
  induction ops generalizing s with
  | nil => simpa [run] using h
  | cons op ops ih =>
    rw [run_fst_cons]
    apply ih
    intro k hk
    cases op with
    | create opts =>
      rw [stepOp_create_idCount]
      cases hl : env.launchResult s.bm.launchCalls with
      | error e =>
        have hk' : k ∈ s.bm.sessions.map Prod.fst := by
          simpa [stepOp, createSession, hl] using hk
        rcases h k hk' with ⟨j, hj, hje⟩
        exact ⟨j, Nat.lt_succ_of_lt hj, hje⟩
      | ok ep =>
        simp only [stepOp, createSession, hl] at hk
        rcases List.mem_map.mp hk with ⟨p, hp, rfl⟩
        rcases mem_mapSet _ _ _ _ hp with h' | h'
        · exact ⟨s.idCount, Nat.lt_succ_self _, by rw [h']⟩
        · rcases h p.1 (List.mem_map_of_mem Prod.fst h') with ⟨j, hj, hje⟩
          exact ⟨j, Nat.lt_succ_of_lt hj, hje⟩
    | kill kid =>
      rw [stepOp_kill_idCount]
      cases hg : mapGet s.bm.sessions kid with
      | none =>
        apply h
        simpa [stepOp, killSession, hg] using hk
      | some srec =>
        simp only [stepOp, killSession, hg] at hk
        rcases List.mem_map.mp hk with ⟨p, hp, rfl⟩
        exact h p.1 (List.mem_map_of_mem Prod.fst (mem_mapDelete _ _ _ hp))

theorem run_absent_stays (env : Env) (ops : List Op) (s : Sys) (id : String)
    (habs : mapGet s.bm.sessions id = none)
    (hfresh : ∀ k, s.idCount ≤ k → env.freshId k ≠ id) :
    mapGet (run env s ops).1.bm.sessions id = none := by
  induction ops generalizing s with
  | nil => simpa [run] using habs
  | cons op ops ih =>
    rw [run_fst_cons]
    apply ih
    · cases op with
      | create opts =>
        cases hl : env.launchResult s.bm.launchCalls with
        | error e => simpa [stepOp, createSession, hl] using habs
        | ok ep =>
          simp only [stepOp, createSession, hl]
          rw [mapGet_mapSet_ne _ _ _ _ (hfresh s.idCount (le_refl _))]
          exact habs
      | kill kid =>
        cases hg : mapGet s.bm.sessions kid with
        | none => simpa [stepOp, killSession, hg] using habs
        | some srec =>
          simp only [stepOp, killSession, hg]
          rw [mapGet_mapDelete]
          by_cases hidk : id = kid
          · simp [hidk]
          · simpa [hidk] using habs
    · intro k hk
      exact hfresh k (le_trans (stepOp_idCount_le env s op) hk)

/-- C5: once `killSession(id)` has returned `true` (after any request trace
from the initial state), every later `getSession(id)` reports not-found, no
matter which further requests are served: ids are drawn from a
collision-free generator and never reused, so a removed session is never
visible again. -/
theorem c5_terminated_stays_gone (env : Env) (ops1 ops2 : List Op) (id : String)
    (hinj : Function.Injective env.freshId)
    (htrue : (killSession env (run env Sys.init ops1).1.bm id).2.2 = true) :
    getSession
      (run env
        ⟨(killSession env (run env Sys.init ops1).1.bm id).1,
         (run env Sys.init ops1).1.idCount⟩ ops2).1.bm id = none := by
  cases hg : mapGet (run env Sys.init ops1).1.bm.sessions id with
  | none => rw [killSession, hg] at htrue; cases htrue
  | some srec =>
    have hbm : (killSession env (run env Sys.init ops1).1.bm id).1
        = { (run env Sys.init ops1).1.bm with
            sessions := mapDelete (run env Sys.init ops1).1.bm.sessions id } := by
      rw [killSession, hg]
    rcases run_keys_from_freshId env ops1 Sys.init
        (by simp [Sys.init, BM.init]) id (mapGet_some_mem_keys _ _ _ hg)
      with ⟨j, hj, rfl⟩
    rw [getSession, run_absent_stays]
    · rfl
    · rw [hbm]
      show mapGet (mapDelete _ _) _ = none
      rw [mapGet_mapDelete]
      simp
    · intro k hk heq
      have hk' : (run env Sys.init ops1).1.idCount ≤ k := hk
      have hkj := hinj heq
      omega

/-- C5 witness: a concrete create, a kill that returns `true`, and a later
create, after which the killed id is still gone. -/
theorem c5_witness :
    getSession
      (run envA
        ⟨(killSession envA (run envA Sys.init [Op.create {}]).1.bm
            (envA.freshId 0)).1,
         (run envA Sys.init [Op.create {}]).1.idCount⟩ [Op.create {}]).1.bm
      (envA.freshId 0) = none :=
  c5_terminated_stays_gone envA [Op.create {}] [Op.create {}] (envA.freshId 0)
    envA_freshId_inj (by decide)

end BaaS

namespace BaaS

/-- C2 counterexample: two different requested launch configurations
(differing in the user-agent override) yield identical sessions from
`create` followed by `get` — `createSession` stores only
`{headless, proxy: !!proxy, viewport}`, dropping `userAgent` and coercing
the proxy descriptor to a presence boolean, so the returned options cannot
equal the requested configuration verbatim. -/
theorem c2_counterexample :
    ({ userAgent := some "Agent-A" } : Options)
      ≠ ({ userAgent := some "Agent-B" } : Options) ∧
    getSession (createSession envA BM.init "sess_x"
        { userAgent := some "Agent-A" }).1 "sess_x"
      = getSession (createSession envA BM.init "sess_x"
        { userAgent := some "Agent-B" }).1 "sess_x" :=
  ⟨by decide, by decide⟩

/-- C2 amended: `create` followed immediately by `get(returnedId)` returns a
session with status `active` and endpoint equal to the driver-returned
endpoint (non-empty whenever the driver returns a non-empty endpoint), whose
options store the requested headless flag and viewport verbatim, the proxy
only as a presence boolean, and no user-agent. -/
theorem c2_create_get_amended (env : Env) (st : BM) (id : String) (opts : Options)
    (ep : String) (hep : env.launchResult st.launchCalls = Except.ok ep)
    (hne : ep ≠ "") :
    getSession (createSession env st id opts).1 id
      = some { sessionId := id, wsEndpoint := ep, createdAt := env.now st.tick,
               status := "active",
               options := ⟨opts.headless, opts.proxy.isSome, opts.viewport⟩ } ∧
    ∀ info, getSession (createSession env st id opts).1 id = some info →
      info.wsEndpoint ≠ "" := by
  have h1 : getSession (createSession env st id opts).1 id
      = some { sessionId := id, wsEndpoint := ep, createdAt := env.now st.tick,
               status := "active",
               options := ⟨opts.headless, opts.proxy.isSome, opts.viewport⟩ } := by
    simp [createSession, hep, getSession, mapGet_mapSet_self]
  refine ⟨h1, ?_⟩
  intro info hinfo
  rw [h1] at hinfo
  cases Option.some.inj hinfo
  exact hne

/-- C2 witness: a concrete create with proxy and user-agent set. -/
theorem c2_witness :
    getSession (createSession envA BM.init "sess_x"
        { headless := false, proxy := some ⟨"p", "u", "w"⟩,
          viewport := ⟨800, 600⟩, userAgent := some "UA" }).1 "sess_x"
      = some { sessionId := "sess_x", wsEndpoint := "ws://127.0.0.1:3001/cdp",
               createdAt := "2026-01-01T00:00:00.000Z", status := "active",
               options := ⟨false, true, ⟨800, 600⟩⟩ } ∧
    ∀ info, getSession (createSession envA BM.init "sess_x"
        { headless := false, proxy := some ⟨"p", "u", "w"⟩,
          viewport := ⟨800, 600⟩, userAgent := some "UA" }).1 "sess_x" = some info →
      info.wsEndpoint ≠ "" :=
  c2_create_get_amended envA BM.init "sess_x"
    { headless := false, proxy := some ⟨"p", "u", "w"⟩,
      viewport := ⟨800, 600⟩, userAgent := some "UA" }
    "ws://127.0.0.1:3001/cdp" rfl (by decide)

theorem cleanupGo_fst_cons (env : Env) (st : BM) (k : String) (ks : List String) :
    (cleanupGo env st (k :: ks)).1 = (cleanupGo env (killSession env st k).1 ks).1 := by
  rw [cleanupGo]

theorem cleanupGo_drains (env : Env) (ks : List String) (st : BM)
    (h : ∀ k ∈ st.sessions.map Prod.fst, k ∈ ks) :
    (cleanupGo env st ks).1.sessions = [] := by
  induction ks generalizing st with
  | nil =>
    cases hs : st.sessions with
    | nil => simp [cleanupGo, hs]
    | cons p rest =>
      have hm : p.1 ∈ st.sessions.map Prod.fst := by
        rw [hs]
        exact List.mem_map_of_mem Prod.fst (List.mem_cons_self p rest)
      exact absurd (h p.1 hm) (List.not_mem_nil p.1)
  | cons k ks ih =>
    rw [cleanupGo_fst_cons]
    cases hg : mapGet st.sessions k with
    | none =>
      have he : (killSession env st k).1 = st := by rw [killSession, hg]
      rw [he]
      apply ih st
      intro k' hk'
      rcases List.mem_cons.mp (h k' hk') with h' | h'
      · exact absurd (h' ▸ hk') ((mapGet_eq_none_iff st.sessions k).mp hg)
      · exact h'
    | some s =>
      have he : (killSession env st k).1
          = { st with sessions := mapDelete st.sessions k } := by
        rw [killSession, hg]
      rw [he]
      apply ih
      intro k' hk'
      rcases List.mem_map.mp hk' with ⟨p, hp, rfl⟩
      have hpl : p ∈ st.sessions := mem_mapDelete _ _ _ hp
      have hpk : p.1 ≠ k := mem_mapDelete_ne _ _ _ hp
      rcases List.mem_cons.mp (h p.1 (List.mem_map_of_mem Prod.fst hpl)) with h' | h'
      · exact absurd h' hpk
      · exact h'

/-- C4 counterexample: after `cleanup()` has completed, a further create
call is not rejected — the code defines no ShuttingDown error — and it
registers a new session (count goes from 0 back to 1). -/
theorem c4_counterexample :
    getActiveCount (cleanup envA stA).1 = 0 ∧
    (createSession envA (cleanup envA stA).1 "sess_z" {}).2.2
      = Except.ok { sessionId := "sess_z", wsEndpoint := "ws://127.0.0.1:3001/cdp",
                    createdAt := "2026-01-01T00:00:00.000Z", status := "active" } ∧
    getActiveCount (createSession envA (cleanup envA stA).1 "sess_z" {}).1 = 1 :=
  ⟨by decide, rfl, by decide⟩

/-- C4 amended: `cleanup()` drains the registry — afterwards
`getActiveCount()` is 0 — but create calls attempted after shutdown are not
rejected: no ShuttingDown error exists and, when the driver launch
succeeds, `createSession` still registers a session. -/
theorem c4_cleanup_drains_amended (env : Env) (st : BM) (id : String)
    (opts : Options) (ep : String)
    (hep : env.launchResult (cleanup env st).1.launchCalls = Except.ok ep) :
    getActiveCount (cleanup env st).1 = 0 ∧
    (createSession env (cleanup env st).1 id opts).2.2
      = Except.ok { sessionId := id, wsEndpoint := ep,
                    createdAt := env.now (cleanup env st).1.tick,
                    status := "active" } ∧
    getActiveCount (createSession env (cleanup env st).1 id opts).1 = 1 := by
  have hdrain : (cleanup env st).1.sessions = [] :=
    cleanupGo_drains env (st.sessions.map Prod.fst) st (fun k hk => hk)
  refine ⟨?_, ?_, ?_⟩
  · simp [getActiveCount, hdrain]
  · simp [createSession, hep]
  · simp [createSession, hep, getActiveCount, hdrain, mapSet]

/-- C4 witness: a concrete cleanup followed by a successful create. -/
theorem c4_witness :
    getActiveCount (cleanup envA stA).1 = 0 ∧
    (createSession envA (cleanup envA stA).1 "sess_w" {}).2.2
      = Except.ok { sessionId := "sess_w", wsEndpoint := "ws://127.0.0.1:3001/cdp",
                    createdAt := "2026-01-01T00:00:00.000Z", status := "active" } ∧
    getActiveCount (createSession envA (cleanup envA stA).1 "sess_w" {}).1 = 1 :=
  c4_cleanup_drains_amended envA stA "sess_w" {} "ws://127.0.0.1:3001/cdp" rfl

theorem run_status_active (env : Env) (ops : List Op) (s : Sys)
    (h : ∀ p ∈ s.bm.sessions, p.2.status = "active") :
    ∀ p ∈ (run env s ops).1.bm.sessions, p.2.status = "active" := by
  induction ops generalizing s with
  | nil => simpa [run] using h
  | cons op ops ih =>
    rw [run_fst_cons]
    apply ih
    intro p hp
    cases op with
    | create opts =>
      cases hl : env.launchResult s.bm.launchCalls with
      | error e =>
        exact h p (by simpa [stepOp, createSession, hl] using hp)
      | ok ep =>
        simp only [stepOp, createSession, hl] at hp
        rcases mem_mapSet _ _ _ _ hp with h' | h'
        · rw [h']
        · exact h p h'
    | kill kid =>
      cases hg : mapGet s.bm.sessions kid with
      | none => exact h p (by simpa [stepOp, killSession, hg] using hp)
      | some srec =>
        simp only [stepOp, killSession, hg] at hp
        exact h p (mem_mapDelete _ _ _ hp)

/-- C9 counterexample: on a concrete state, `killSession` invokes the
driver's `close()` while the session's status is still `active` — the code
never assigns status `terminating`. -/
theorem c9_counterexample :
    (killSession envA stA "sess_x").2.1
      = [Event.closed 0 "active" none, Event.removed "sess_x"] ∧
    ("active" : String) ≠ "terminating" :=
  ⟨by decide, by decide⟩

/-- C9 amended: for a present id, `killSession` invokes `close()` on the
session's handle with the status the session already had (it is never set
to `terminating`), then removes the entry and returns `true`; and in every
state reachable from the initial state every stored session's status is
`active`. -/
theorem c9_terminate_amended :
    (∀ env st id s, mapGet st.sessions id = some s →
      killSession env st id =
        ({ st with sessions := mapDelete st.sessions id },
         [Event.closed s.server s.status (env.closeResult s.server),
          Event.removed id], true)) ∧
    (∀ env ops p, p ∈ (run env Sys.init ops).1.bm.sessions →
      p.2.status = "active") :=
  ⟨fun env st id s hs => by rw [killSession, hs],
   fun env ops p hp =>
    run_status_active env ops Sys.init (by simp [Sys.init, BM.init]) p hp⟩

/-- C9 witness: a concrete kill of a present session, and a concrete
reachable session entry with status `active`. -/
theorem c9_witness :
    killSession envA stA "sess_x" =
      ({ stA with sessions := mapDelete stA.sessions "sess_x" },
       [Event.closed 0 "active" none, Event.removed "sess_x"], true) ∧
    (("", ⟨0, "ws://127.0.0.1:3001/cdp", "2026-01-01T00:00:00.000Z", "active",
        ⟨true, false, ⟨1920, 1080⟩⟩⟩) : String × Session).2.status = "active" :=
  ⟨c9_terminate_amended.1 envA stA "sess_x"
    ⟨0, "ws://127.0.0.1:3001/cdp", "2026-01-01T00:00:00.000Z", "active",
      ⟨true, false, ⟨1920, 1080⟩⟩⟩ (by decide),
   c9_terminate_amended.2 envA [Op.create {}]
    ("", ⟨0, "ws://127.0.0.1:3001/cdp", "2026-01-01T00:00:00.000Z", "active",
      ⟨true, false, ⟨1920, 1080⟩⟩⟩) (by decide)⟩

end BaaS
